import Mathlib

/-!
Verification of the library store (lib.c): registry of open libraries,
search-path resolution, unit cache with lazy loading, dirty-tracked save,
and lifecycle operations.  The C code is shallowly embedded: pointers to
interned identifiers become strings compared by value, the filesystem
becomes an explicit association-list state, and every filesystem call the
code issues is recorded as an explicit event so that frame properties
(which operations touch the disk) can be stated.
-/

set_option autoImplicit false

namespace LibC

/-- Identifiers are interned strings; pointer equality of interned
identifiers in the C code is string equality here. -/
abbrev Ident := String

/-- Models ident_new from the identifier service: interning a string. -/
def ident_new (s : String) : Ident := s

/-- Models istr: the canonical string rendering of an identifier. -/
def istr (i : Ident) : String := i

/-- Models the C toupper loop in upcase_name: every character is upcased
(ASCII, the default C locale). -/
def upcase_name (name : String) : Ident :=
  ident_new (List.asString (name.data.map Char.toUpper))

/-- Models the tolower loop in lib_find_at (ASCII, default C locale). -/
def lowerStr (s : String) : String :=
  List.asString (s.data.map Char.toLower)

/-- A compilation-unit tree is an opaque external object; all the library
code ever asks of it is its identifier (tree_ident).  The contents field
stands for the rest of the tree. -/
structure Tree where
  ident : Ident
  contents : Nat
deriving DecidableEq

/-- Models tree_ident. -/
def tree_ident (t : Tree) : Ident := t.ident

/-- Contents of a file as seen by the external reader: either opaque text
(the marker file) or the serialized form of a unit tree. -/
inductive FileData where
  | text (s : String)
  | unit (t : Tree)
deriving DecidableEq

/-- Models the external tree reader: deserializing a unit file yields the
tree it was written from; reading anything else is garbage (default). -/
def tree_read : FileData → Tree
  | FileData.unit t => t
  | FileData.text _ => ⟨ident_new "", 0⟩

/-- Filesystem model: existing directories with their entry listings, and
existing files with their contents.  Both are association lists keyed by
full path. -/
structure FS where
  dirs : List (String × List String)
  files : List (String × FileData)
deriving DecidableEq

/-- Models access(p, F_OK): the path exists as a directory or a file. -/
def FS.pathExists (fs : FS) (p : String) : Bool :=
  fs.dirs.any (fun d => d.1 == p) || fs.files.any (fun f => f.1 == p)

/-- Models opendir/readdir: the entry listing of a directory, or none when
opendir fails. -/
def FS.dirlist (fs : FS) (p : String) : Option (List String) :=
  (fs.dirs.find? (fun d => d.1 == p)).map (fun d => d.2)

/-- File contents at a path, if the file exists. -/
def FS.fileContent (fs : FS) (p : String) : Option FileData :=
  (fs.files.find? (fun f => f.1 == p)).map (fun f => f.2)

/-- File contents with a garbage default, for the deserialization path. -/
def FS.fileContentD (fs : FS) (p : String) : FileData :=
  (fs.fileContent p).getD (FileData.text "")

/-- Models mkdir: a new empty directory appears. -/
def FS.mkdirAt (fs : FS) (p : String) : FS :=
  ⟨(p, []) :: fs.dirs, fs.files⟩

/-- Models fopen(dir/entr, w) followed by a write: the file appears with
the given contents and is listed in its directory. -/
def FS.addFile (fs : FS) (dir entr : String) (data : FileData) : FS :=
  ⟨fs.dirs.map (fun d => if d.1 == dir then (d.1, d.2 ++ [entr]) else d),
   (dir ++ "/" ++ entr, data) :: fs.files⟩

/-- One filesystem call issued by the library code.  Operations are pure
state transformers returning the list of calls they made, so that claims
about which operations touch the disk are statements about these traces. -/
inductive IOEvent where
  | openRead (path : String)
  | openWrite (path : String)
  | openDir (path : String)
  | unlinkFile (path : String)
  | rmdirDir (path : String)
deriving DecidableEq

/-- Models struct lib_unit: a cached unit tree and its dirty flag. -/
structure LibUnit where
  top : Tree
  dirty : Bool
deriving DecidableEq

/-- Models struct lib: the stored (realpath-resolved) backing path, the
upcased interned name, and the unit cache in insertion order.  An empty
path marks an ephemeral (temporary) library, exactly as in the C code. -/
structure Lib where
  path : String
  name : Ident
  units : List LibUnit
deriving DecidableEq

/-- Models MAX_UNITS. -/
def MAX_UNITS : Nat := 16

/-- Models realpath, the external OS path canonicalizer, treated as opaque:
identity on the abstract path names used here, so that the empty rpath of
a temporary library stays empty as the ephemeral-check convention in
lib_get_ctx and lib_load_all requires. -/
def realpathF (p : String) : String := p

/-- Models PACKAGE_STRING, the build-time version identification string. -/
def PACKAGE_STRING : String := "nvc 0.1"

/-- Models DATADIR, the build-time installation data directory. -/
def DATADIR : String := "/usr/local/share/nvc"

/-- Models lib_put_aux: assert the cache is below MAX_UNITS (none encodes
the assertion aborting the process), then append the entry. -/
def lib_put_aux (lib : Lib) (unit : Tree) (dirty : Bool) : Option Lib :=
  if lib.units.length < MAX_UNITS then
    some ⟨lib.path, lib.name, lib.units ++ [⟨unit, dirty⟩]⟩
  else
    none

/-- Models lib_put: append with dirty = true. -/
def lib_put (lib : Lib) (unit : Tree) : Option Lib :=
  lib_put_aux lib unit true

/-- The in-order cache scan of lib_get_ctx: first entry whose unit has the
requested identifier. -/
def cacheFind (lib : Lib) (ident : Ident) : Option LibUnit :=
  lib.units.find? (fun u => tree_ident u.top == ident)

/-- Models lib_get_ctx (and thus lib_get): scan the cache in insertion
order; on a miss return not-found for an ephemeral library, otherwise
open the backing directory (fatal — none — if that fails), scan its
entries for a filename equal to the identifier string, and on a match
read and deserialize the file and insert it with dirty = false (which can
abort on the MAX_UNITS assertion).  Returns the result, the updated
library, and the trace of filesystem calls. -/
def lib_get_ctx (fs : FS) (lib : Lib) (ident : Ident) :
    Option (Option Tree × Lib × List IOEvent) :=
  match cacheFind lib ident with
  | some u => some (some u.top, lib, [])
  | none =>
    if lib.path = "" then
      some (none, lib, [])
    else
      match fs.dirlist lib.path with
      | none => none
      | some entries =>
        match entries.find? (fun e => e == istr ident) with
        | none => some (none, lib, [IOEvent.openDir lib.path])
        | some e =>
          let t := tree_read (fs.fileContentD (lib.path ++ "/" ++ e))
          match lib_put_aux lib t false with
          | none => none
          | some lib2 =>
            some (some t, lib2,
              [IOEvent.openDir lib.path,
               IOEvent.openRead (lib.path ++ "/" ++ e)])

/-- Models lib_save: for every dirty cache entry, in order, open
(create-or-truncate) the file named by the unit's identifier inside the
backing path and write the unit, then clear the dirty flag.  Clean
entries are skipped with no file operation. -/
def lib_save (lib : Lib) : Lib × List IOEvent :=
  (⟨lib.path, lib.name, lib.units.map (fun u => ⟨u.top, false⟩)⟩,
   (lib.units.filter (fun u => u.dirty)).map
     (fun u => IOEvent.openWrite (lib.path ++ "/" ++ istr (tree_ident u.top))))

/-- Models lib_destroy: open the backing directory (on failure only perror
and return), unlink every entry not starting with a dot, then rmdir the
directory.  Only the trace of attempted filesystem calls matters to the
claims; failures of individual calls are tolerated by the code. -/
def lib_destroy (fs : FS) (lib : Lib) : List IOEvent :=
  match fs.dirlist lib.path with
  | none => [IOEvent.openDir lib.path]
  | some entries =>
    IOEvent.openDir lib.path ::
      ((entries.filter (fun e => ¬ e.startsWith ".")).map
        (fun e => IOEvent.unlinkFile (lib.path ++ "/" ++ e))
       ++ [IOEvent.rmdirDir lib.path])

/-- The directory probed by lib_find_at: the C code builds base/name and
then lowercases the whole buffer in place, base included. -/
def probe_dir (name path : String) : String :=
  lowerStr (path ++ "/" ++ name)

/-- Models lib_find_at without its lib_init side effect: returns the
accepted directory, or none.  The candidate is accepted only when the
probed directory exists and a file _NVC_LIB exists directly inside it
(both tested with access).  Registration of the successful handle is
performed by the caller, exactly when this returns some. -/
def lib_find_at (fs : FS) (name path : String) : Option String :=
  let dir := probe_dir name path
  if ¬ fs.pathExists dir then none
  else if ¬ fs.pathExists (dir ++ "/_NVC_LIB") then none
  else some dir

/-- Models MAX_SEARCH_PATHS. -/
def MAX_SEARCH_PATHS : Nat := 64

/-- Models push_path on the NULL-terminated candidate array: an entry
(possibly the NULL pointer, none) is appended only while fewer than
MAX_SEARCH_PATHS - 1 entries have been pushed; otherwise it is silently
dropped. -/
def push_path (base : List (Option String)) (p : Option String) :
    List (Option String) :=
  if base.length < MAX_SEARCH_PATHS - 1 then base ++ [p] else base

/-- Splits a character list at a separator, keeping empty pieces. -/
def splitCharsAux (sep : Char) : List Char → List Char → List String
  | [], acc => [List.asString acc.reverse]
  | c :: cs, acc =>
    if c = sep then
      List.asString acc.reverse :: splitCharsAux sep cs []
    else
      splitCharsAux sep cs (c :: acc)

/-- Models the strtok(s, colon) tokenization used on NVC_LIBPATH: maximal
nonempty runs between colons, so empty pieces are skipped. -/
def strtok_colon (s : String) : List String :=
  (splitCharsAux ':' s.data []).filter (fun t => t ≠ "")

/-- The pushed candidate array of lib_find, before the NULL-terminator
cut.  The do-while loop over strtok pushes its first result even when it
is NULL, which happens exactly when the environment variable is set but
has no nonempty token. -/
def raw_paths (search : Bool) (env : Option String) : List (Option String) :=
  let ps0 := push_path [] (some ".")
  if search then
    let ps1 :=
      match env with
      | none => ps0
      | some e =>
        match strtok_colon e with
        | [] => push_path ps0 none
        | toks => toks.foldl (fun acc t => push_path acc (some t)) ps0
    push_path ps1 (some DATADIR)
  else
    ps0

/-- The candidate directories lib_find actually iterates: the pushed array
up to its first NULL entry. -/
def eff_paths (search : Bool) (env : Option String) : List String :=
  ((raw_paths search env).takeWhile Option.isSome).filterMap id

/-- Models the probing loop of lib_find: try lib_find_at on each candidate
in order and stop at the first success. -/
def probe_paths (fs : FS) (name : String) : List String → Option String
  | [] => none
  | p :: rest =>
    match lib_find_at fs name p with
    | some dir => some dir
    | none => probe_paths fs name rest

/-- Process-wide state for the registry-level operations: the filesystem,
the loaded list (most recently registered first, as lib_init prepends),
and the work pointer. -/
structure GState where
  fs : FS
  loaded : List Lib
  work : Option Lib
deriving DecidableEq

/-- Models lib_init: build the lib with upcased name and realpath-resolved
backing path, and prepend it to the loaded list. -/
def lib_init_st (name rpath : String) (s : GState) : Lib × GState :=
  let l : Lib := ⟨realpathF rpath, upcase_name name, []⟩
  (l, ⟨s.fs, l :: s.loaded, s.work⟩)

/-- Models lib_tmp: an ephemeral library named work with an empty rpath. -/
def lib_tmp_st (s : GState) : Lib × GState :=
  lib_init_st "work" "" s

/-- Models lib_new: fail (registry and filesystem untouched) when a path
of that name already exists or when mkdir fails for an OS reason (the
latter abstracted by the mkdirOk parameter); otherwise make the
directory, register the handle via lib_init, and write the _NVC_LIB
marker file containing the version string. -/
def lib_new_st (mkdirOk : Bool) (name : String) (s : GState) :
    Option Lib × GState :=
  if s.fs.pathExists name then (none, s)
  else if ¬ mkdirOk then (none, s)
  else
    let s1 : GState := ⟨s.fs.mkdirAt name, s.loaded, s.work⟩
    let r := lib_init_st name name s1
    (some r.1,
     ⟨r.2.fs.addFile r.1.path "_NVC_LIB" (FileData.text (PACKAGE_STRING ++ "\n")),
      r.2.loaded, r.2.work⟩)

/-- Models lib_find: return an already loaded library with the same
upcased name without touching the filesystem; otherwise probe the
candidate directories in order and register a handle around the first
valid one, or return none. -/
def lib_find_st (search : Bool) (env : Option String) (name : String)
    (s : GState) : Option Lib × GState :=
  let name_i := upcase_name name
  match s.loaded.find? (fun l => l.name == name_i) with
  | some l => (some l, s)
  | none =>
    match probe_paths s.fs name (eff_paths search env) with
    | none => (none, s)
    | some dir =>
      let r := lib_init_st name dir s
      (some r.1, r.2)

/-- States of the process reachable through the handle-constructing
operations of the interface (lib_tmp, lib_new, lib_find), from an initial
state with no library loaded. -/
inductive Reach : GState → Prop where
  | init (fs : FS) : Reach ⟨fs, [], none⟩
  | tmp (s : GState) : Reach s → Reach (lib_tmp_st s).2
  | new (mk : Bool) (name : String) (s : GState) :
      Reach s → Reach (lib_new_st mk name s).2
  | find (search : Bool) (env : Option String) (name : String) (s : GState) :
      Reach s → Reach (lib_find_st search env name s).2

/-- Registry model for lib_free and the work pointer: the linked list of
open handles, with pointer identity of the heap-allocated lib structures
abstracted by natural-number handle identifiers. -/
structure RegState where
  loaded : List Nat
  work : Option Nat
deriving DecidableEq

/-- The lib_free removal loop from its second iteration on.  In the C
code prev is initialized to NULL and never reassigned, and the for-loop
update clause executes loaded = it before each advance; cur is the node
the update clause last stored into loaded, rest the nodes from it on.
On a match the prev-is-NULL branch sets loaded to it's successor; when
the loop falls off the end, loaded ends up at the node last stored. -/
def freeScan (lib cur : Nat) (rest : List Nat) : List Nat :=
  match rest with
  | [] => [cur]
  | y :: ys => if y = lib then ys else freeScan lib y ys

/-- Models the registry effect of lib_free's removal loop on the list
reachable from loaded. -/
def lib_free_reg (lib : Nat) (l : List Nat) : List Nat :=
  match l with
  | [] => []
  | x :: xs => if x = lib then xs else freeScan lib x xs

/-- Models lib_free at the process level: run the removal loop on the
loaded list; the work pointer is never touched. -/
def lib_free_st (lib : Nat) (s : RegState) : RegState :=
  ⟨lib_free_reg lib s.loaded, s.work⟩

/-- Models lib_work: the work pointer, whose assertion failure when unset
is encoded by the none result. -/
def lib_work_st (s : RegState) : Option Nat :=
  s.work

/-- Models lib_destroy at the process level: the function only issues
filesystem calls from the lib's stored path; it does not write to the
registry, the work pointer, or any lib structure. -/
def lib_destroy_st (lib : Lib) (s : GState) : GState × List IOEvent :=
  (s, lib_destroy s.fs lib)

/-- Library names currently registered, used to phrase the registry
uniqueness invariant. -/
def libNames (l : List Lib) : List Ident :=
  l.map Lib.name

/-- Convenience initial states for concrete evaluations. -/
def fs0 : FS := ⟨[], []⟩

def gs0 : GState := ⟨fs0, [], none⟩

/-- The probed path as the specification words it: the base directory
joined with the lowercased name, the base itself unchanged.  Stated for
comparison with probe_dir, which is what the code computes. -/
def specProbeDir (name path : String) : String :=
  path ++ "/" ++ lowerStr name

/-- A filesystem holding a valid library at A/b: the directory exists and
carries the marker file. -/
def fsA : FS :=
  ⟨[("A/b", ["_NVC_LIB"])], [("A/b/_NVC_LIB", FileData.text "x")]⟩

/-- Searching a list whose first part has no match continues in the rest. -/
theorem find_append_of_none {α : Type} (p : α → Bool) (l1 l2 : List α)
    (h : l1.find? p = none) : (l1 ++ l2).find? p = l2.find? p := by
  induction l1 with
  | nil => rfl
  | cons x xs ih =>
    cases hp : p x with
    | true =>
      rw [List.find?_cons_of_pos _ hp] at h
      exact absurd h (by simp)
    | false =>
      rw [List.find?_cons_of_neg _ (by simp [hp])] at h
      rw [List.cons_append, List.find?_cons_of_neg _ (by simp [hp])]
      exact ih h

/-- A cache hit returns the cached unit with no filesystem call and the
library unchanged. -/
theorem get_cache_hit (fs : FS) (lib : Lib) (id : Ident) (e : LibUnit)
    (h : cacheFind lib id = some e) :
    lib_get_ctx fs lib id = some (some e.top, lib, []) := by
  unfold lib_get_ctx
  rw [h]

/-- After clearing every dirty flag, no entry is dirty. -/
theorem filter_dirty_of_cleared (l : List LibUnit) :
    ((l.map (fun u => (⟨u.top, false⟩ : LibUnit))).filter
      (fun u => u.dirty)) = [] := by
  induction l with
  | nil => rfl
  | cons x xs ih => simp [ih]

/-- While the total would stay within the cap, the push loop appends every
token. -/
theorem foldl_push_all (l : List String) (acc : List (Option String))
    (h : acc.length + l.length ≤ 63) :
    List.foldl (fun ac t => push_path ac (some t)) acc l =
      acc ++ l.map some := by
  induction l generalizing acc with
  | nil => simp
  | cons c cs ih =>
    have hlt : acc.length < MAX_SEARCH_PATHS - 1 := by
      simp only [List.length_cons] at h
      unfold MAX_SEARCH_PATHS
      omega
    have hle : (acc ++ [some c]).length + cs.length ≤ 63 := by
      simp only [List.length_append, List.length_cons, List.length_nil] at h ⊢
      omega
    rw [List.foldl_cons, push_path, if_pos hlt, ih (acc ++ [some c]) hle]
    simp

/-- The push loop never grows the array beyond the cap. -/
theorem push_path_le (acc : List (Option String)) (p : Option String)
    (h : acc.length ≤ 63) : (push_path acc p).length ≤ 63 := by
  unfold push_path MAX_SEARCH_PATHS
  split
  · simp only [List.length_append, List.length_singleton]
    omega
  · exact h

/-- The cap bound is preserved across the whole token loop. -/
theorem foldl_push_le (l : List String) (acc : List (Option String))
    (h : acc.length ≤ 63) :
    (List.foldl (fun ac t => push_path ac (some t)) acc l).length ≤ 63 := by
  induction l generalizing acc with
  | nil => exact h
  | cons c cs ih => exact ih (push_path acc (some c)) (push_path_le acc (some c) h)

/-- The push loop keeps the first pushed entry in front. -/
theorem foldl_push_cons (l : List String) (a : Option String)
    (acc : List (Option String)) :
    ∃ t, List.foldl (fun ac tk => push_path ac (some tk)) (a :: acc) l =
      a :: t := by
  induction l generalizing acc with
  | nil => exact ⟨acc, rfl⟩
  | cons c cs ih =>
    rw [List.foldl_cons]
    unfold push_path
    split
    · exact ih (acc ++ [some c])
    · exact ih acc

/-- A candidate array with no NULL entry is iterated in full. -/
theorem eff_of_all_some (l : List String) :
    (((l.map some).takeWhile Option.isSome).filterMap id) = l := by
  induction l with
  | nil => rfl
  | cons x xs ih =>
    simp only [List.map_cons, List.takeWhile_cons, Option.isSome_some,
      List.filterMap_cons]
    simp [ih]

/-- Taking a prefix of the candidate array cannot lengthen it. -/
theorem length_takeWhile_le_len {α : Type} (p : α → Bool) (l : List α) :
    (l.takeWhile p).length ≤ l.length := by
  induction l with
  | nil => simp
  | cons x xs ih =>
    rw [List.takeWhile_cons]
    cases p x
    · simp
    · simp
      omega

/-- Dropping the NULL entries cannot lengthen the candidate array. -/
theorem length_filterMap_id_le {α : Type} (l : List (Option α)) :
    (l.filterMap id).length ≤ l.length := by
  induction l with
  | nil => simp
  | cons x xs ih => cases x <;> simp [List.filterMap_cons] <;> omega

/-- The pushed candidate array always starts with the current directory. -/
theorem raw_paths_head (search : Bool) (env : Option String) :
    ∃ t, raw_paths search env = some "." :: t := by
  cases search with
  | false => exact ⟨[], rfl⟩
  | true =>
    cases env with
    | none => exact ⟨[some DATADIR], rfl⟩
    | some e =>
      cases htk : strtok_colon e with
      | nil =>
        refine ⟨[none, some DATADIR], ?_⟩
        simp only [raw_paths, htk]
        rfl
      | cons c cs =>
        obtain ⟨t, ht⟩ := foldl_push_cons (c :: cs) (some ".") []
        simp only [raw_paths, htk]
        have h0 : push_path [] (some ".") = [some "."] := rfl
        rw [if_pos trivial, h0, ht]
        unfold push_path
        split
        · exact ⟨t ++ [some DATADIR], by simp⟩
        · exact ⟨t, rfl⟩

/-- With the environment variable yielding tokens that fit under the cap,
the pushed array is the current directory, the tokens, then DATADIR. -/
theorem raw_paths_env (e : String) (htk : strtok_colon e ≠ [])
    (hlen : (strtok_colon e).length + 2 ≤ 63) :
    raw_paths true (some e) =
      ("." :: (strtok_colon e ++ [DATADIR])).map some := by
  cases hcs : strtok_colon e with
  | nil => exact absurd hcs htk
  | cons c cs =>
    rw [hcs] at hlen
    simp only [raw_paths, hcs]
    have h0 : push_path [] (some ".") = [some "."] := rfl
    rw [if_pos trivial, h0]
    have hfold := foldl_push_all (c :: cs) [some "."] (by
      simp only [List.length_cons, List.length_nil] at hlen ⊢
      omega)
    rw [hfold]
    unfold push_path
    rw [if_pos (by
      simp only [List.length_append, List.length_cons, List.length_nil,
        List.length_map, MAX_SEARCH_PATHS] at hlen ⊢
      omega)]
    simp

/-- The pushed candidate array never exceeds the cap of 63 entries. -/
theorem raw_paths_le (search : Bool) (env : Option String) :
    (raw_paths search env).length ≤ 63 := by
  have h1 : (push_path [] (some ".")).length ≤ 63 := by decide
  cases search with
  | false => exact h1
  | true =>
    cases env with
    | none => exact push_path_le _ _ h1
    | some e =>
      cases htk : strtok_colon e with
      | nil =>
        simp only [raw_paths, htk]
        rw [if_pos trivial]
        exact push_path_le _ _ (push_path_le _ _ h1)
      | cons c cs =>
        simp only [raw_paths, htk]
        rw [if_pos trivial]
        exact push_path_le _ _ (foldl_push_le _ _ h1)

/-- C1: the registry uniqueness invariant fails on the code as stated —
starting from an empty registry, two lib_tmp calls each register a handle
named WORK, reaching a state whose registered names are not distinct. -/
theorem registry_dup_reachable :
    Reach ((lib_tmp_st (lib_tmp_st gs0).2).2) ∧
      ¬ (libNames ((lib_tmp_st (lib_tmp_st gs0).2).2).loaded).Nodup := by
  constructor
  · exact Reach.tmp _ (Reach.tmp _ (Reach.init fs0))
  · decide

/-- C1 amended: of the handle-constructing operations only lib_find
consults the registry before registering, so lib_find preserves the
at-most-one-handle-per-canonical-name invariant; lib_new and lib_tmp
register unconditionally and can violate it. -/
theorem lib_find_preserves_unique_names (search : Bool) (env : Option String)
    (name : String) (s : GState)
    (h : (libNames s.loaded).Nodup) :
    (libNames ((lib_find_st search env name s).2).loaded).Nodup := by
  simp only [lib_find_st, libNames] at h ⊢
  cases hf : s.loaded.find? (fun l => l.name == upcase_name name) with
  | some l =>
    simp only [hf]
    exact h
  | none =>
    simp only [hf]
    cases hp : probe_paths s.fs name (eff_paths search env) with
    | none =>
      simp only [hp]
      exact h
    | some dir =>
      simp only [hp, lib_init_st, List.map_cons, List.nodup_cons]
      refine ⟨?_, h⟩
      intro hmem
      rcases List.mem_map.mp hmem with ⟨l, hl, hname⟩
      have hne := List.find?_eq_none.mp hf l hl
      simp only [beq_iff_eq] at hne
      exact hne hname

/-- C1 amended, witness at a concrete state. -/
theorem lib_find_preserves_unique_names_witness :
    (libNames ((lib_find_st false none "a" gs0).2).loaded).Nodup :=
  lib_find_preserves_unique_names false none "a" gs0 (by decide)

/-- C2: ephemeral isolation fails on the code as stated — for the handle
constructed by lib_tmp, save with a dirty cached unit attempts a file
open (of path /U here, the empty backing path joined with the unit name),
and destroy attempts to open the empty backing path as a directory. -/
theorem ephemeral_save_destroy_io :
    lib_put (lib_tmp_st gs0).1 ⟨"U", 1⟩ =
        some ⟨"", "WORK", [⟨⟨"U", 1⟩, true⟩]⟩ ∧
      (lib_save ⟨"", "WORK", [⟨⟨"U", 1⟩, true⟩]⟩).2 =
        [IOEvent.openWrite "/U"] ∧
      lib_destroy fs0 (lib_tmp_st gs0).1 = [IOEvent.openDir ""] := by
  decide

/-- C2 amended: for an ephemeral handle (empty backing path), put and get
perform no filesystem calls and get after put returns the inserted unit
from the cache; but save attempts a file open for every dirty entry and
destroy always attempts to open the backing directory. -/
theorem ephemeral_isolation_amended (fs : FS) (lib : Lib) (u : Tree)
    (id : Ident) (lib1 : Lib) (hpath : lib.path = "") :
    (∀ i, ∃ r, lib_get_ctx fs lib i = some (r, lib, [])) ∧
      (tree_ident u = id → cacheFind lib id = none →
        lib_put lib u = some lib1 →
        lib_get_ctx fs lib1 id = some (some u, lib1, [])) ∧
      (lib_save lib).2 =
        (lib.units.filter (fun x => x.dirty)).map
          (fun x => IOEvent.openWrite ("/" ++ istr (tree_ident x.top))) ∧
      (lib_destroy fs lib).head? = some (IOEvent.openDir "") := by
  refine ⟨?_, ?_, ?_, ?_⟩
  · intro i
    unfold lib_get_ctx
    cases hc : cacheFind lib i with
    | some e => exact ⟨some e.top, rfl⟩
    | none =>
      rw [if_pos hpath]
      exact ⟨none, rfl⟩
  · intro hid hmiss hput
    simp only [lib_put, lib_put_aux] at hput
    split at hput
    · cases hput
      apply get_cache_hit fs _ id ⟨u, true⟩
      unfold cacheFind at hmiss ⊢
      simp only
      rw [find_append_of_none _ _ _ hmiss]
      simp [hid]
    · cases hput
  · rw [lib_save]
    simp only [hpath]
    simp
  · unfold lib_destroy
    rw [hpath]
    cases fs.dirlist "" <;> rfl

/-- C2 amended, witness at concrete inputs. -/
theorem ephemeral_isolation_amended_witness :
    (∀ i, ∃ r, lib_get_ctx fs0 (⟨"", "WORK", []⟩ : Lib) i =
        some (r, ⟨"", "WORK", []⟩, [])) ∧
      (tree_ident ⟨"U", 1⟩ = "U" →
        cacheFind ⟨"", "WORK", []⟩ "U" = none →
        lib_put ⟨"", "WORK", []⟩ ⟨"U", 1⟩ =
          some ⟨"", "WORK", [⟨⟨"U", 1⟩, true⟩]⟩ →
        lib_get_ctx fs0 ⟨"", "WORK", [⟨⟨"U", 1⟩, true⟩]⟩ "U" =
          some (some ⟨"U", 1⟩, ⟨"", "WORK", [⟨⟨"U", 1⟩, true⟩]⟩, [])) ∧
      (lib_save (⟨"", "WORK", []⟩ : Lib)).2 =
        ((⟨"", "WORK", []⟩ : Lib).units.filter (fun x => x.dirty)).map
          (fun x => IOEvent.openWrite ("/" ++ istr (tree_ident x.top))) ∧
      (lib_destroy fs0 (⟨"", "WORK", []⟩ : Lib)).head? =
        some (IOEvent.openDir "") :=
  ephemeral_isolation_amended fs0 ⟨"", "WORK", []⟩ ⟨"U", 1⟩ "U"
    ⟨"", "WORK", [⟨⟨"U", 1⟩, true⟩]⟩ rfl

/-- C3: the removal loop of lib_free is broken — prev is never updated
and the loop's update clause overwrites the list head, so freeing the
tail handle of a two-element registry empties the registry (dropping the
other handle), and freeing a handle that is not registered moves the
registry head to its last element instead of leaving it unchanged. -/
theorem lib_free_drops_other_handles :
    (lib_free_st 2 ⟨[1, 2], none⟩).loaded = [] ∧
      (lib_free_st 2 ⟨[1, 2], none⟩).loaded ≠ [1] ∧
      (lib_free_st 3 ⟨[1, 2], none⟩).loaded = [2] ∧
      (lib_free_st 1 ⟨[1, 2], none⟩).loaded = [2] := by
  decide

/-- C10: lib_free never writes the work pointer, so after freeing the
current work library the work pointer still refers to the freed handle
and lib_work does not become unset. -/
theorem lib_free_work_frame (s : RegState) (h : Nat) :
    (lib_free_st h s).work = s.work ∧
      (s.work = some h → lib_work_st (lib_free_st h s) = some h) := by
  constructor
  · rfl
  · intro hw
    simp [lib_work_st, lib_free_st, hw]

/-- C10 witness: freeing the registered work library 1 leaves the work
pointer at 1. -/
theorem lib_free_work_frame_witness :
    (lib_free_st 1 ⟨[1], some 1⟩).work = some 1 ∧
      ((⟨[1], some 1⟩ : RegState).work = some 1 →
        lib_work_st (lib_free_st 1 ⟨[1], some 1⟩) = some 1) :=
  lib_free_work_frame ⟨[1], some 1⟩ 1

/-- C4: the resolver does not probe base joined with lowercase(name) with
the base unchanged — lib_find_at lowercases the whole joined buffer, so
with base A and name b it probes a/b instead of A/b, and a valid library
stored at A/b is rejected. -/
theorem probe_lowercases_base :
    probe_dir "b" "A" = "a/b" ∧
      specProbeDir "b" "A" = "A/b" ∧
      probe_dir "b" "A" ≠ specProbeDir "b" "A" ∧
      fsA.pathExists (specProbeDir "b" "A") = true ∧
      fsA.pathExists (specProbeDir "b" "A" ++ "/_NVC_LIB") = true ∧
      lib_find_at fsA "b" "A" = none := by
  decide

/-- C4 amended: the probed path is the lowercasing of the whole joined
string base/name (the base is lowercased too, not left unchanged); the
candidate is accepted exactly when that probed path exists and a file
named _NVC_LIB exists directly inside it, and the accepted directory is
the probed path. -/
theorem lib_find_at_amended (fs : FS) (name path : String) :
    probe_dir name path = lowerStr (path ++ "/" ++ name) ∧
      lib_find_at fs name path =
        (if fs.pathExists (probe_dir name path) &&
              fs.pathExists (probe_dir name path ++ "/_NVC_LIB")
          then some (probe_dir name path)
          else none) := by
  refine ⟨rfl, ?_⟩
  unfold lib_find_at
  cases h1 : fs.pathExists (probe_dir name path) <;>
    cases h2 : fs.pathExists (probe_dir name path ++ "/_NVC_LIB") <;>
    simp [h1, h2]

/-- C5: the candidate list is not deduplicated — with the search-path
variable naming the current directory, the probed list holds "." twice;
and with the variable set but holding no nonempty token, a null entry
truncates the list so the data directory is never probed and is not
last. -/
theorem search_paths_not_dedup :
    eff_paths true (some ".") = [".", ".", DATADIR] ∧
      ¬ (eff_paths true (some ".")).Nodup ∧
      eff_paths true (some "") = ["."] := by
  decide

/-- C5 amended: the candidate list always starts with the current
directory and is capped at 63 entries with silent truncation, but it is
not deduplicated; without extended search it is the current directory
alone; with extended search it is followed by the colon-separated tokens
of the search-path variable in listed order and then the installation
data directory last, except that a variable set with no nonempty token
ends the list right after the current directory; the first valid
candidate wins and probing stops there. -/
theorem search_path_order_amended (search : Bool) (env : Option String) :
    (eff_paths search env).head? = some "." ∧
      (search = false → eff_paths search env = ["."]) ∧
      (search = true → env = none → eff_paths search env = [".", DATADIR]) ∧
      (∀ e, search = true → env = some e → strtok_colon e ≠ [] →
        (strtok_colon e).length + 2 ≤ 63 →
        eff_paths search env = "." :: (strtok_colon e ++ [DATADIR])) ∧
      (∀ e, search = true → env = some e → strtok_colon e = [] →
        eff_paths search env = ["."]) ∧
      (eff_paths search env).length ≤ 63 ∧
      (∀ (fs : FS) (nm p : String) (rest : List String) (dir : String),
        lib_find_at fs nm p = some dir →
        probe_paths fs nm (p :: rest) = some dir) := by
  refine ⟨?_, ?_, ?_, ?_, ?_, ?_, ?_⟩
  · obtain ⟨t, ht⟩ := raw_paths_head search env
    rw [eff_paths, ht]
    simp [List.takeWhile_cons]
  · intro hs
    subst hs
    rfl
  · intro hs he
    subst hs
    subst he
    decide
  · intro e hs he htk hlen
    subst hs
    subst he
    rw [eff_paths, raw_paths_env e htk hlen, eff_of_all_some]
  · intro e hs he htk
    subst hs
    subst he
    simp only [eff_paths, raw_paths, htk]
    rfl
  · calc (eff_paths search env).length
        ≤ ((raw_paths search env).takeWhile Option.isSome).length :=
          length_filterMap_id_le _
      _ ≤ (raw_paths search env).length := length_takeWhile_le_len _ _
      _ ≤ 63 := raw_paths_le search env
  · intro fs nm p rest dir hfind
    simp only [probe_paths, hfind]

/-- C5 amended, witness: with extended search and the variable a:b the
candidate list is the current directory, a, b, then the data directory. -/
theorem search_path_order_amended_witness :
    eff_paths true (some "a:b") = "." :: (strtok_colon "a:b" ++ [DATADIR]) :=
  (search_path_order_amended true (some "a:b")).2.2.2.1 "a:b" rfl rfl
    (by decide) (by decide)

/-- C6: lib_save opens a file for exactly the dirty cache entries, in
order, and clears every dirty flag, so a second save with no intervening
put performs zero file writes. -/
theorem lib_save_exact_and_idempotent (lib : Lib) :
    (lib_save lib).2 =
        (lib.units.filter (fun u => u.dirty)).map
          (fun u => IOEvent.openWrite
            (lib.path ++ "/" ++ istr (tree_ident u.top))) ∧
      (lib_save lib).1.units =
        lib.units.map (fun u => (⟨u.top, false⟩ : LibUnit)) ∧
      (lib_save (lib_save lib).1).2 = [] := by
  refine ⟨rfl, rfl, ?_⟩
  simp only [lib_save, filter_dirty_of_cleared, List.map_nil]

/-- C7: put appends unconditionally with dirty true and never
deduplicates, so two puts of units reporting the same identifier leave
two entries with that identifier in the cache, and get returns the unit
of the earliest-inserted matching entry — here the first of the two. -/
theorem put_append_get_first_match (fs : FS) (lib : Lib) (u1 u2 : Tree)
    (id : Ident) (lib1 lib2 : Lib)
    (h1 : tree_ident u1 = id) (_h2 : tree_ident u2 = id)
    (hmiss : cacheFind lib id = none)
    (hp1 : lib_put lib u1 = some lib1)
    (hp2 : lib_put lib1 u2 = some lib2) :
    lib2.units = lib.units ++ [⟨u1, true⟩, ⟨u2, true⟩] ∧
      lib_get_ctx fs lib2 id = some (some u1, lib2, []) ∧
      (∀ (l : Lib) (e : LibUnit), cacheFind l id = some e →
        lib_get_ctx fs l id = some (some e.top, l, [])) := by
  simp only [lib_put, lib_put_aux] at hp1 hp2
  split at hp1
  · cases hp1
    split at hp2
    · cases hp2
      have hcf : cacheFind
          (⟨lib.path, lib.name,
            (lib.units ++ [⟨u1, true⟩]) ++ [⟨u2, true⟩]⟩ : Lib) id =
          some ⟨u1, true⟩ := by
        unfold cacheFind at hmiss ⊢
        simp only [List.append_assoc]
        rw [find_append_of_none _ _ _ hmiss]
        simp only [List.cons_append, List.nil_append]
        have h1x : u1.ident = id := h1
        rw [List.find?_cons_of_pos _ (by simp [tree_ident, h1x])]
      refine ⟨by simp, ?_, ?_⟩
      · exact get_cache_hit fs _ id ⟨u1, true⟩ hcf
      · intro l e he
        exact get_cache_hit fs l id e he
    · cases hp2
  · cases hp1

/-- C7 witness at concrete inputs: two units named U inserted into an
empty cache; get returns the first. -/
theorem put_append_get_first_match_witness :
    (⟨"p", "L", [⟨⟨"U", 1⟩, true⟩, ⟨⟨"U", 2⟩, true⟩]⟩ : Lib).units =
        (⟨"p", "L", []⟩ : Lib).units ++ [⟨⟨"U", 1⟩, true⟩, ⟨⟨"U", 2⟩, true⟩] ∧
      lib_get_ctx fs0 ⟨"p", "L", [⟨⟨"U", 1⟩, true⟩, ⟨⟨"U", 2⟩, true⟩]⟩ "U" =
        some (some ⟨"U", 1⟩,
          ⟨"p", "L", [⟨⟨"U", 1⟩, true⟩, ⟨⟨"U", 2⟩, true⟩]⟩, []) ∧
      (∀ (l : Lib) (e : LibUnit), cacheFind l "U" = some e →
        lib_get_ctx fs0 l "U" = some (some e.top, l, [])) :=
  put_append_get_first_match fs0 ⟨"p", "L", []⟩ ⟨"U", 1⟩ ⟨"U", 2⟩ "U"
    ⟨"p", "L", [⟨⟨"U", 1⟩, true⟩]⟩
    ⟨"p", "L", [⟨⟨"U", 1⟩, true⟩, ⟨⟨"U", 2⟩, true⟩]⟩
    rfl rfl rfl (by decide) (by decide)

/-- C8: lib_new returns no library and leaves the registry and the
filesystem unchanged when the target path already exists or when mkdir
fails; on success the directory exists, contains a _NVC_LIB marker file
holding the version string, and the returned handle is registered. -/
theorem lib_new_behavior (s : GState) (name : String) (mk : Bool) :
    (s.fs.pathExists name = true → lib_new_st mk name s = (none, s)) ∧
      (s.fs.pathExists name = false → mk = false →
        lib_new_st mk name s = (none, s)) ∧
      (s.fs.pathExists name = false → mk = true →
        ((lib_new_st mk name s).1 = some ⟨name, upcase_name name, []⟩ ∧
          (lib_new_st mk name s).2.fs.pathExists name = true ∧
          (lib_new_st mk name s).2.fs.fileContent (name ++ "/" ++ "_NVC_LIB") =
            some (FileData.text (PACKAGE_STRING ++ "\n")) ∧
          (lib_new_st mk name s).2.loaded =
            ⟨name, upcase_name name, []⟩ :: s.loaded ∧
          (lib_new_st mk name s).2.work = s.work)) := by
  refine ⟨?_, ?_, ?_⟩
  · intro hex
    simp [lib_new_st, hex]
  · intro hex hmk
    subst hmk
    simp [lib_new_st, hex]
  · intro hex hmk
    subst hmk
    rw [lib_new_st, if_neg (by simp [hex]), if_neg (by simp)]
    refine ⟨rfl, ?_, ?_, rfl, rfl⟩
    · simp [lib_init_st, realpathF, FS.mkdirAt, FS.addFile, FS.pathExists]
    · simp [lib_init_st, realpathF, FS.mkdirAt, FS.addFile, FS.fileContent]

/-- C8 witness: creating mylib in an empty state succeeds, registers the
handle, and leaves the marker file on disk. -/
theorem lib_new_behavior_witness :
    (lib_new_st true "mylib" gs0).1 = some ⟨"mylib", upcase_name "mylib", []⟩ ∧
      (lib_new_st true "mylib" gs0).2.fs.pathExists "mylib" = true ∧
      (lib_new_st true "mylib" gs0).2.fs.fileContent ("mylib" ++ "/" ++ "_NVC_LIB") =
        some (FileData.text (PACKAGE_STRING ++ "\n")) ∧
      (lib_new_st true "mylib" gs0).2.loaded =
        ⟨"mylib", upcase_name "mylib", []⟩ :: gs0.loaded ∧
      (lib_new_st true "mylib" gs0).2.work = gs0.work :=
  (lib_new_behavior gs0 "mylib" true).2.2 (by decide) rfl

/-- C9: lib_destroy only issues filesystem calls — the registry, the work
pointer, and every lib structure are untouched, and a unit cached in the
handle is still returned by get afterwards (a cache hit consults no
filesystem state at all). -/
theorem lib_destroy_memory_frame (s : GState) (lib : Lib) (id : Ident)
    (e : LibUnit) (fs2 : FS) (_hpath : lib.path ≠ "") :
    (lib_destroy_st lib s).1 = s ∧
      (cacheFind lib id = some e →
        lib_get_ctx fs2 lib id = some (some e.top, lib, [])) :=
  ⟨rfl, fun h => get_cache_hit fs2 lib id e h⟩

/-- C9 witness at a concrete non-ephemeral handle with one cached unit. -/
theorem lib_destroy_memory_frame_witness :
    (lib_destroy_st ⟨"p", "L", [⟨⟨"U", 1⟩, false⟩]⟩ gs0).1 = gs0 ∧
      (cacheFind ⟨"p", "L", [⟨⟨"U", 1⟩, false⟩]⟩ "U" =
          some ⟨⟨"U", 1⟩, false⟩ →
        lib_get_ctx fs0 ⟨"p", "L", [⟨⟨"U", 1⟩, false⟩]⟩ "U" =
          some (some ⟨"U", 1⟩, ⟨"p", "L", [⟨⟨"U", 1⟩, false⟩]⟩, [])) :=
  lib_destroy_memory_frame gs0 ⟨"p", "L", [⟨⟨"U", 1⟩, false⟩]⟩ "U"
    ⟨⟨"U", 1⟩, false⟩ fs0 (by decide)

end LibC
